import Mathlib

/-!
Verification of the OTA-Hub-reactjs framing, dispatch, registry and
reconnection core against its specification.

The definitions below are a shallow embedding of the TypeScript sources:

* `src/base/device-whisperer.ts` (the two variants shipped in the repo):
  `createDefaultInitialDeviceState`, `addConnection`, `appendLog`;
* `src/message_layers/protobuf-wrapper.ts`:
  `wrapLengthPrefixed`, `tryDecodeLengthPrefixed` (with its inner
  `findHeader`), and the decode loop of `protoBufOnReceiveHandler`;
* `src/transport_layers/serial-device-whisperer.ts`: the per-byte
  SLIP/line state machine of `readLoop` (stream variant), and the USB
  polling variant of the same loop;
* `src/transport_layers/websocket-device-whisperer.ts`: the bounded
  auto-reconnect policy of `connect`/`ws.onclose`.

Bytes are modelled as `Nat` (all source values are in 0..255 and no
arithmetic overflows 32-bit JS integers), byte buffers as `List Nat`,
uuids as `String`. Decoded protobuf messages are modelled as the raw
byte list handed to the codec, the codec itself as a
`List Nat → Option (List Nat)` (`none` models a thrown decode error),
topic extraction (`msg[messageTypeField]`) as an abstract
`List Nat → Nat`, and the topic handler map as
`Nat → Option (List Nat → Bool)` where the `Bool` result is `false`
when the handler throws.
-/

set_option maxRecDepth 4000

/-! ## Registry (`base/device-whisperer.ts`, both variants) -/

/-- Connection record: the registry-relevant fields of
`DeviceConnectionState` (comm callbacks and transport handles are
behaviour, not state, and are omitted). -/
structure Conn where
  uuid : String
  autoConnect : Bool
  isConnected : Bool
  isConnecting : Bool
  logs : List Nat
deriving DecidableEq

/-- `createDefaultInitialDeviceState` from both base variants: seeds
`autoConnect := true`, not connected, empty logs. -/
def createDefaultInitialDeviceState (uuid : String) : Conn :=
  { uuid := uuid, autoConnect := true, isConnected := false,
    isConnecting := false, logs := [] }

/-- `addConnection` of the array-based base variant (`unnamed/part_000`),
called with an explicit uuid and no `propCreator`: it unconditionally
appends a fresh record to `connectionsRef.current`, then returns the
uuid if `getConnection` (first match by uuid) finds a record, and the
empty string otherwise. -/
def arrayAddConnection (conns : List Conn) (uuid : String) :
    List Conn × String :=
  let newConnection := createDefaultInitialDeviceState uuid
  let updated := conns ++ [newConnection]
  match updated.find? (fun c => c.uuid == uuid) with
  | some _ => (updated, uuid)
  | none => (updated, "")

/-- JS `Map.set` semantics on an insertion-ordered association list:
replace the value in place when the key is present, append otherwise. -/
def mapSet (m : List (String × Conn)) (k : String) (v : Conn) :
    List (String × Conn) :=
  if m.any (fun p => p.1 == k) then
    m.map (fun p => if p.1 == k then (k, v) else p)
  else m ++ [(k, v)]

/-- JS `Map.get` on the association-list model. -/
def mapGet (m : List (String × Conn)) (k : String) : Option Conn :=
  (m.find? (fun p => p.1 == k)).map (fun p => p.2)

/-- `addConnection` of the map-based base variant (`unnamed/part_001`),
called with an explicit uuid and no `propCreator`: it builds a fresh
default record and `Map.set`s it under the uuid, then returns the uuid. -/
def mapAddConnection (m : List (String × Conn)) (uuid : String) :
    List (String × Conn) × String :=
  (mapSet m uuid (createDefaultInitialDeviceState uuid), uuid)

/-- The `logs` update performed by `appendLog` in both base variants:
`[...c.logs.slice(-199), log]`. JS `slice(-199)` keeps the last (up to)
199 entries, i.e. drops `length - 199` from the front (0 when shorter). -/
def appendLog {α : Type} (logs : List α) (log : α) : List α :=
  logs.drop (logs.length - 199) ++ [log]

/-! ## Bounded auto-reconnect (`websocket-device-whisperer.ts`) -/

/-- `MAX_RETRIES` constant in `connect`. -/
def MAX_RETRIES : Nat := 5

/-- `RETRY_DELAY_MS` constant in `connect`. -/
def RETRY_DELAY_MS : Nat := 2000

/-- The decision taken by the `ws.onclose` handler of `connect(uuid,
attempt)`: when `autoConnect` still holds and `attempt < MAX_RETRIES`,
schedule `connect(uuid, attempt + 1)` (returning the new attempt
number); otherwise schedule nothing. -/
def wsCloseStep (autoConnect : Bool) (attempt : Nat) : Option Nat :=
  if autoConnect ∧ attempt < MAX_RETRIES then some (attempt + 1) else none

/-- Number of reconnects scheduled over a run of `closures` consecutive
unexpected closures with `autoConnect` true throughout, starting at the
given attempt counter: each closure fires `ws.onclose`, and a scheduled
reconnect carries the incremented attempt into the next closure. -/
def countReconnects : Nat → Nat → Nat
  | 0, _ => 0
  | closures + 1, attempt =>
    match wsCloseStep true attempt with
    | some next => 1 + countReconnects closures next
    | none => 0

/-! ## Length-prefixed protobuf layer (`protobuf-wrapper.ts`) -/

/-- `wrapLengthPrefixed`: prepend the 2-byte big-endian payload length.
Note that it never prepends the configured `HEADER`. -/
def wrapLengthPrefixed (payload : List Nat) : List Nat :=
  ((payload.length >>> 8) &&& 0xff) :: (payload.length &&& 0xff) :: payload

/-- The inner `findHeader` of `tryDecodeLengthPrefixed`: first index
`i < buf.length - 1` with `buf[i] === HEADER[0] && buf[i+1] === HEADER[1]`.
Out-of-range JS indexing yields `undefined`, which compares unequal to
any number; `Option` equality models this (both positions `i`, `i + 1`
are in range over the scanned indices). -/
def findHeader (HEADER buf : List Nat) : Option Nat :=
  (List.range (buf.length - 1)).find?
    (fun i => buf.get? i == HEADER.get? 0 && buf.get? (i + 1) == HEADER.get? 1)

/-- Body of `tryDecodeLengthPrefixed` after the header scan has already
(re)based `buffer` at the header match (lines 92–107 of
`protobuf-wrapper.ts`): length check, 2-byte big-endian payload length,
payload availability check, then the codec; a successful decode
consumes the frame, a thrown decode error returns `buffer.slice(1)`. -/
def tryDecodeCore (HEADER : List Nat) (dec : List Nat → Option (List Nat))
    (buffer : List Nat) : Option (List Nat) × List Nat :=
  if buffer.length < HEADER.length + 2 then (none, buffer)
  else
    let len := ((buffer.getD HEADER.length 0) <<< 8) |||
      (buffer.getD (HEADER.length + 1) 0)
    if buffer.length < HEADER.length + 2 + len then (none, buffer)
    else
      match dec ((buffer.drop (HEADER.length + 2)).take len) with
      | some m => (some m, buffer.drop (HEADER.length + 2 + len))
      | none => (none, buffer.drop 1)

/-- `tryDecodeLengthPrefixed`: when a header is configured, scan for it
and slice the buffer at the match (returning the untouched buffer when
no match exists), then run the core decode. -/
def tryDecodeLengthPrefixed (HEADER : List Nat)
    (dec : List Nat → Option (List Nat)) (buffer : List Nat) :
    Option (List Nat) × List Nat :=
  if HEADER.length ≠ 0 then
    match findHeader HEADER buffer with
    | none => (none, buffer)
    | some i => tryDecodeCore HEADER dec (buffer.drop i)
  else tryDecodeCore HEADER dec buffer

/-- Observable effects of one `protoBufOnReceiveHandler` decode pass:
handler dispatches, the error/warning/received-text log appends, and
the garbage-skip log (carrying the 16-byte hex-preview source bytes and
the discarded count). -/
inductive PBEvent where
  | dispatched (topic : Nat) (msg : List Nat)
  | handlerError (topic : Nat)
  | unknownTopic (topic : Nat)
  | textLine (text : List Nat)
  | garbage (preview : List Nat) (count : Nat)
deriving DecidableEq

/-- Dispatch of one decoded message (lines 136–153): look up
`rxTopicHandlerMap[topic]`; invoke it, logging at error level with the
topic if it throws (`false` result); log an unknown-topic warning when
no handler is registered. -/
def dispatchEvt (topicOf : List Nat → Nat)
    (handlers : Nat → Option (List Nat → Bool)) (msg : List Nat) : PBEvent :=
  match handlers (topicOf msg) with
  | some h =>
    if h msg then PBEvent.dispatched (topicOf msg) msg
    else PBEvent.handlerError (topicOf msg)
  | none => PBEvent.unknownTopic (topicOf msg)

/-- JS `String.trim` on ASCII text, at the byte level. -/
def isWsByte (b : Nat) : Bool :=
  b = 32 || b = 9 || b = 10 || b = 11 || b = 12 || b = 13

/-- Byte-level model of `new TextDecoder().decode(line).trim()`. -/
def trimBytes (l : List Nat) : List Nat :=
  ((l.dropWhile isWsByte).reverse.dropWhile isWsByte).reverse

/-- The handler's own header scan (line 160):
`buffer.findIndex((_, i) => HEADER.every((h, idx) => buffer[i] + idx === h))`.
Note the index arithmetic `buffer[i] + idx` of the source, which is kept
verbatim. An empty `HEADER` satisfies `every` vacuously, giving index 0. -/
def buggyHeaderIdx (HEADER buffer : List Nat) : Option Nat :=
  (List.range buffer.length).find?
    (fun i => (List.range HEADER.length).all
      (fun idx => buffer.getD i 0 + idx == HEADER.getD idx 0))

/-- Text branch of the decode loop (lines 163–175): slice the line off,
decode + trim it, and log it at received-text level when non-empty. -/
def pbTextStep (recur : List Nat → List PBEvent × List Nat)
    (buffer : List Nat) (n : Nat) : List PBEvent × List Nat :=
  let text := trimBytes (buffer.take n)
  let rest := recur (buffer.drop (n + 1))
  ((if text = [] then [] else [PBEvent.textLine text]) ++ rest.1, rest.2)

/-- Garbage branch of the decode loop (lines 176–191): drop everything
before the header candidate and log one warning with a preview of the
first 16 discarded bytes and the discarded count. -/
def pbGarbageStep (recur : List Nat → List PBEvent × List Nat)
    (buffer : List Nat) (h : Nat) : List PBEvent × List Nat :=
  let garbage := buffer.take h
  let rest := recur (buffer.drop h)
  (PBEvent.garbage (garbage.take 16) garbage.length :: rest.1, rest.2)

/-- One iteration of the `while (buffer.length > 0)` loop of
`protoBufOnReceiveHandler` (lines 131–195), parameterised by the
continuation used for the next iteration. A decoded message is
dispatched and the loop continues on `remaining`; otherwise the source
checks the newline/header-candidate conditions in order: text line,
garbage skip, or break (returning the unconsumed buffer). -/
def pbBody (HEADER : List Nat) (dec : List Nat → Option (List Nat))
    (topicOf : List Nat → Nat) (handlers : Nat → Option (List Nat → Bool))
    (recur : List Nat → List PBEvent × List Nat) (buffer : List Nat) :
    List PBEvent × List Nat :=
  match tryDecodeLengthPrefixed HEADER dec buffer with
  | (some msg, remaining) =>
    let rest := recur remaining
    (dispatchEvt topicOf handlers msg :: rest.1, rest.2)
  | (none, _) =>
    match buffer.findIdx? (fun b => b == 10), buggyHeaderIdx HEADER buffer with
    | some n, none => pbTextStep recur buffer n
    | some n, some h =>
      if n < h then pbTextStep recur buffer n
      else if 0 < h then pbGarbageStep recur buffer h
      else ([], buffer)
    | none, some h =>
      if 0 < h then pbGarbageStep recur buffer h else ([], buffer)
    | none, none => ([], buffer)

/-- Fuelled unfolding of the decode loop. Every productive iteration
consumes at least one byte of the buffer, so fuel `buffer.length`
computes the loop exactly (`pbGo_fuel` below makes this precise). -/
def pbGo (HEADER : List Nat) (dec : List Nat → Option (List Nat))
    (topicOf : List Nat → Nat) (handlers : Nat → Option (List Nat → Bool)) :
    Nat → List Nat → List PBEvent × List Nat
  | 0, buffer => ([], buffer)
  | _ + 1, [] => ([], [])
  | fuel + 1, b :: bs =>
    pbBody HEADER dec topicOf handlers
      (pbGo HEADER dec topicOf handlers fuel) (b :: bs)

/-- The complete decode loop of `protoBufOnReceiveHandler` on a
buffer: events emitted in order, and the final `buffers[uuid]`. -/
def protoBufLoop (HEADER : List Nat) (dec : List Nat → Option (List Nat))
    (topicOf : List Nat → Nat) (handlers : Nat → Option (List Nat → Bool))
    (buffer : List Nat) : List PBEvent × List Nat :=
  pbGo HEADER dec topicOf handlers buffer.length buffer

/-- `protoBufOnReceiveHandler`: append the arriving chunk to the
connection's buffer, then run the decode loop. -/
def protoBufOnReceiveHandler (HEADER : List Nat)
    (dec : List Nat → Option (List Nat)) (topicOf : List Nat → Nat)
    (handlers : Nat → Option (List Nat → Bool))
    (stateBuffer chunk : List Nat) : List PBEvent × List Nat :=
  protoBufLoop HEADER dec topicOf handlers (stateBuffer ++ chunk)

/-- A successful core decode consumes at least the two length bytes. -/
lemma tryDecodeCore_some_lt {HEADER : List Nat}
    {dec : List Nat → Option (List Nat)} {b m rem : List Nat}
    (h : tryDecodeCore HEADER dec b = (some m, rem)) :
    rem.length < b.length := by
  simp only [tryDecodeCore] at h
  split_ifs at h with h1 h2
  · simp at h
  · simp at h
  · split at h
    · rw [Prod.mk.injEq] at h
      obtain ⟨-, hr⟩ := h
      subst hr
      simp only [List.length_drop]
      omega
    · simp at h

/-- A successful `tryDecodeLengthPrefixed` strictly shrinks the buffer. -/
lemma tryDecode_some_lt {HEADER : List Nat}
    {dec : List Nat → Option (List Nat)} {buffer m rem : List Nat}
    (h : tryDecodeLengthPrefixed HEADER dec buffer = (some m, rem)) :
    rem.length < buffer.length := by
  unfold tryDecodeLengthPrefixed at h
  split_ifs at h with hH
  · rcases hf : findHeader HEADER buffer with _ | i
    · rw [hf] at h
      simp at h
    · rw [hf] at h
      have hlt := tryDecodeCore_some_lt h
      have : (buffer.drop i).length ≤ buffer.length := by
        simp only [List.length_drop]; omega
      omega
  · exact tryDecodeCore_some_lt h

/-- `pbBody` only consults its continuation on strictly smaller
buffers, so two continuations agreeing below the buffer's length give
the same iteration result. -/
lemma pbBody_congr {HEADER : List Nat} {dec : List Nat → Option (List Nat)}
    {topicOf : List Nat → Nat} {handlers : Nat → Option (List Nat → Bool)}
    {r1 r2 : List Nat → List PBEvent × List Nat} {buffer : List Nat}
    (hne : buffer ≠ [])
    (hr : ∀ b, b.length < buffer.length → r1 b = r2 b) :
    pbBody HEADER dec topicOf handlers r1 buffer =
      pbBody HEADER dec topicOf handlers r2 buffer := by
  have hpos : 0 < buffer.length := List.length_pos.mpr hne
  unfold pbBody
  rcases hd : tryDecodeLengthPrefixed HEADER dec buffer with ⟨msg?, rem⟩
  rcases msg? with _ | msg
  · rcases hn : buffer.findIdx? (fun b => b == 10) with _ | n
    · rcases hh : buggyHeaderIdx HEADER buffer with _ | h
      · simp only [hn, hh]
      · simp only [hn, hh]
        split_ifs with h0
        · unfold pbGarbageStep
          rw [hr (buffer.drop h) (by simp only [List.length_drop]; omega)]
        · rfl
    · rcases hh : buggyHeaderIdx HEADER buffer with _ | h
      · simp only [hn, hh]
        unfold pbTextStep
        rw [hr (buffer.drop (n + 1)) (by simp only [List.length_drop]; omega)]
      · simp only [hn, hh]
        split_ifs with hnh h0
        · unfold pbTextStep
          rw [hr (buffer.drop (n + 1)) (by simp only [List.length_drop]; omega)]
        · unfold pbGarbageStep
          rw [hr (buffer.drop h) (by simp only [List.length_drop]; omega)]
        · rfl
  · simp only [hr rem (tryDecode_some_lt hd)]

/-- Fuel-invariance: any fuel at least the buffer length computes the
same loop result. -/
lemma pbGo_fuel {HEADER : List Nat} {dec : List Nat → Option (List Nat)}
    {topicOf : List Nat → Nat} {handlers : Nat → Option (List Nat → Bool)} :
    ∀ f1 f2 (b : List Nat), b.length ≤ f1 → b.length ≤ f2 →
      pbGo HEADER dec topicOf handlers f1 b =
        pbGo HEADER dec topicOf handlers f2 b := by
  intro f1
  induction f1 with
  | zero =>
    intro f2 b h1 _
    have hb : b = [] := by
      cases b with
      | nil => rfl
      | cons x xs => simp at h1
    subst hb
    cases f2 <;> simp [pbGo]
  | succ f ih =>
    intro f2 b h1 h2
    cases b with
    | nil => cases f2 <;> simp [pbGo]
    | cons x xs =>
      cases f2 with
      | zero => simp at h2
      | succ f2' =>
        show pbBody HEADER dec topicOf handlers
            (pbGo HEADER dec topicOf handlers f) (x :: xs) =
          pbBody HEADER dec topicOf handlers
            (pbGo HEADER dec topicOf handlers f2') (x :: xs)
        apply pbBody_congr (by simp)
        intro b' hb'
        simp only [List.length_cons] at h1 h2 hb'
        exact ih f2' b' (by omega) (by omega)

/-- Unfolding equation of the decode loop on a non-empty buffer: one
`pbBody` iteration whose continuation is the loop itself. -/
lemma protoBufLoop_eq (HEADER : List Nat) (dec : List Nat → Option (List Nat))
    (topicOf : List Nat → Nat) (handlers : Nat → Option (List Nat → Bool))
    (buffer : List Nat) (hne : buffer ≠ []) :
    protoBufLoop HEADER dec topicOf handlers buffer =
      pbBody HEADER dec topicOf handlers
        (protoBufLoop HEADER dec topicOf handlers) buffer := by
  cases buffer with
  | nil => exact absurd rfl hne
  | cons x xs =>
    show pbBody HEADER dec topicOf handlers
        (pbGo HEADER dec topicOf handlers xs.length) (x :: xs) = _
    apply pbBody_congr (by simp)
    intro b' hb'
    simp only [List.length_cons] at hb'
    exact pbGo_fuel xs.length b'.length b' (by omega) le_rfl

/-! ## SLIP / line read loop (`serial-device-whisperer.ts`) -/

/-- The local state of `readLoop`, persisting across chunks delivered
by the transport within one loop invocation. -/
structure SlipState where
  readBuffer : List Nat
  slipBuffer : List Nat
  inSlipFrame : Bool
  escapeNext : Bool
deriving DecidableEq

/-- Initial `readLoop` state. -/
def initSlipState : SlipState :=
  { readBuffer := [], slipBuffer := [], inSlipFrame := false,
    escapeNext := false }

/-- Emissions of the read loop: `conn.onReceive(payload)` for a
completed SLIP frame, `conn.onReceive(line)` for a completed text
line. -/
inductive SlipEvent where
  | frame (payload : List Nat)
  | line (text : List Nat)
deriving DecidableEq

/-- Split a text buffer at newline bytes: the list of completed lines
(newline excluded) in order, and the leftover after the last newline.
This computes exactly what the source's
`while ((newlineIndex = readBuffer.indexOf("\n")) >= 0)` loop consumes. -/
def splitAtNewlines : List Nat → List (List Nat) × List Nat
  | [] => ([], [])
  | b :: rest =>
    let r := splitAtNewlines rest
    if b = 10 then ([] :: r.1, r.2)
    else
      match r.1 with
      | l :: ls => ((b :: l) :: ls, r.2)
      | [] => ([], b :: r.2)

/-- Per-line handling of the read loop's newline drain: strip one
trailing `\r` (`replace(/\r$/, "")`), emit the line when
`line.trim()` is non-empty. -/
def lineEvents (line0 : List Nat) : List SlipEvent :=
  let line := if line0.getLast? = some 13 then line0.dropLast else line0
  if trimBytes line = [] then [] else [SlipEvent.line line]

/-- The text path of the read loop: append the byte to `readBuffer`
and drain all completed lines. -/
def drainLines (buf : List Nat) : List Nat × List SlipEvent :=
  let r := splitAtNewlines buf
  (r.2, (r.1.map lineEvents).flatten)

/-- One byte of the stream-serial `readLoop` (lines 107–167): SLIP
delimiter / escape handling while in a frame, frame start on `0xC0`
when `conn.slipReadWrite` is set, ASCII line accumulation otherwise. -/
def readLoopStep (slip : Bool) (s : SlipState) (b : Nat) :
    SlipState × List SlipEvent :=
  if s.inSlipFrame then
    if b = 0xC0 then
      if s.slipBuffer.length > 0 then
        ({ s with
            slipBuffer := [], inSlipFrame := false,
            escapeNext := false }, [SlipEvent.frame s.slipBuffer])
      else ({ s with inSlipFrame := false, escapeNext := false }, [])
    else if s.escapeNext then
      if b = 0xDC then
        ({ s with
            slipBuffer := s.slipBuffer ++ [0xC0], escapeNext := false }, [])
      else if b = 0xDD then
        ({ s with
            slipBuffer := s.slipBuffer ++ [0xDB], escapeNext := false }, [])
      else
        ({ s with
            slipBuffer := [], inSlipFrame := false,
            escapeNext := false }, [])
    else if b = 0xDB then ({ s with escapeNext := true }, [])
    else ({ s with slipBuffer := s.slipBuffer ++ [b] }, [])
  else if b = 0xC0 ∧ slip then
    ({ s with
        inSlipFrame := true, slipBuffer := [], escapeNext := false }, [])
  else
    let r := drainLines (s.readBuffer ++ [b])
    ({ s with readBuffer := r.1 }, r.2)

/-- One byte of the USB polling `readLoop` variant
(`serial-device-whisperer.ts` lines 579–621 and `unnamed/part_002`
lines 219–261). It differs from the stream variant in the escape
branch: after handling `0xDC`/`0xDD` it executes `slipBuffer = []`
unconditionally (the source's `// reset on error?` line), so the
accumulated partial frame is cleared on every escape, and on an invalid
escape byte `inSlipFrame` is left `true`. The frame-start branch also
does not reset `escapeNext`. -/
def usbReadLoopStep (slip : Bool) (s : SlipState) (b : Nat) :
    SlipState × List SlipEvent :=
  if s.inSlipFrame then
    if b = 0xC0 then
      if s.slipBuffer.length > 0 then
        ({ s with
            slipBuffer := [], inSlipFrame := false,
            escapeNext := false }, [SlipEvent.frame s.slipBuffer])
      else ({ s with inSlipFrame := false, escapeNext := false }, [])
    else if s.escapeNext then
      ({ s with slipBuffer := [], escapeNext := false }, [])
    else if b = 0xDB then ({ s with escapeNext := true }, [])
    else ({ s with slipBuffer := s.slipBuffer ++ [b] }, [])
  else if b = 0xC0 ∧ slip then
    ({ s with inSlipFrame := true, slipBuffer := [] }, [])
  else
    let r := drainLines (s.readBuffer ++ [b])
    ({ s with readBuffer := r.1 }, r.2)

/-- The inner `for (let i = 0; i < bytes.length; i++)` loop of the
stream-serial `readLoop` over one chunk: final state and emissions in
order. -/
def readLoopRun (slip : Bool) : SlipState → List Nat →
    SlipState × List SlipEvent
  | s, [] => (s, [])
  | s, b :: rest =>
    ((readLoopRun slip (readLoopStep slip s b).1 rest).1,
     (readLoopStep slip s b).2 ++
       (readLoopRun slip (readLoopStep slip s b).1 rest).2)

/-- The same inner loop of the USB polling variant. -/
def usbReadLoopRun (slip : Bool) : SlipState → List Nat →
    SlipState × List SlipEvent
  | s, [] => (s, [])
  | s, b :: rest =>
    ((usbReadLoopRun slip (usbReadLoopStep slip s b).1 rest).1,
     (usbReadLoopStep slip s b).2 ++
       (usbReadLoopRun slip (usbReadLoopStep slip s b).1 rest).2)

/-- The outer `while (true)` reader loop of the stream-serial
`readLoop`: chunks delivered by `reader.next()` are processed in
sequence against the persistent local state. -/
def readLoopRunChunks (slip : Bool) : SlipState → List (List Nat) →
    SlipState × List SlipEvent
  | s, [] => (s, [])
  | s, c :: cs =>
    ((readLoopRunChunks slip (readLoopRun slip s c).1 cs).1,
     (readLoopRun slip s c).2 ++
       (readLoopRunChunks slip (readLoopRun slip s c).1 cs).2)

/-- Processing a concatenation of byte lists is processing them in
sequence. -/
lemma readLoopRun_append (slip : Bool) (s : SlipState) (xs ys : List Nat) :
    readLoopRun slip s (xs ++ ys) =
      ((readLoopRun slip (readLoopRun slip s xs).1 ys).1,
       (readLoopRun slip s xs).2 ++
         (readLoopRun slip (readLoopRun slip s xs).1 ys).2) := by
  induction xs generalizing s with
  | nil => simp [readLoopRun]
  | cons b rest ih => simp [readLoopRun, ih, List.append_assoc]

/-! ## Claim C1 -/

/-- Claim C1 (amended, positive part): the SLIP/line read-loop state
machine is chunk-invariant — feeding any list of chunks sequentially
through the stream-serial `readLoop` produces exactly the state and
ordered event sequence of feeding their concatenation as one chunk. -/
theorem readLoop_chunk_invariant (slip : Bool) (s : SlipState)
    (chunks : List (List Nat)) :
    readLoopRunChunks slip s chunks = readLoopRun slip s chunks.flatten := by
  induction chunks generalizing s with
  | nil => simp [readLoopRunChunks, readLoopRun]
  | cons c cs ih =>
    simp only [List.flatten_cons, readLoopRun_append, readLoopRunChunks, ih]

/-- A configured 2-byte header, as in the garbage-resync scenario. -/
def cexHeader : List Nat := [0xAA, 0xBB]

/-- A codec whose decode inverts encode: the message is its own
encoding and decoding never throws. -/
def cexDec : List Nat → Option (List Nat) := fun b => some b

/-- A codec whose decode always throws. -/
def cexDecFail : List Nat → Option (List Nat) := fun _ => none

/-- Topic extraction assigning every message topic 0. -/
def cexTopicOf : List Nat → Nat := fun _ => 0

/-- A handler map with one well-behaved handler, registered for
topic 0. -/
def cexHandlers : Nat → Option (List Nat → Bool) :=
  fun t => if t = 0 then some (fun _ => true) else none

/-- Claim C1 (counterexample): the length-prefixed path of
`protoBufOnReceiveHandler` is not chunk-invariant. Feeding the text
line `"A\n"` and then a complete header-framed message as two chunks
emits a received-text log and then the message; feeding the
concatenation as one chunk emits only the message — the bytes before
the header are silently dropped by the header scan inside
`tryDecodeLengthPrefixed` once the complete frame is present. -/
theorem protoBuf_not_chunk_invariant :
    (protoBufOnReceiveHandler cexHeader cexDec cexTopicOf cexHandlers
        [] [0x41, 0x0A]).1 ++
      (protoBufOnReceiveHandler cexHeader cexDec cexTopicOf cexHandlers
        (protoBufOnReceiveHandler cexHeader cexDec cexTopicOf cexHandlers
          [] [0x41, 0x0A]).2 [0xAA, 0xBB, 0x00, 0x01, 0x42]).1 ≠
    (protoBufOnReceiveHandler cexHeader cexDec cexTopicOf cexHandlers
      [] ([0x41, 0x0A] ++ [0xAA, 0xBB, 0x00, 0x01, 0x42])).1 := by
  decide

/-! ## Claim C2 -/

/-- A buffer holding the configured header, the big-endian length 1 and
one payload byte the codec rejects. -/
def c2buffer : List Nat := [0xAA, 0xBB, 0x00, 0x01, 0x07]

/-- Claim C2 (code bug): on a codec decode failure
`tryDecodeLengthPrefixed` does return the buffer with one byte dropped,
but `protoBufOnReceiveHandler` discards that value whenever the decoded
message is `null`, so the connection buffer is left completely
unchanged, no byte is dropped, and the loop exits without retrying:
decoding makes no forward progress on these bytes. -/
theorem decode_failure_drops_nothing :
    protoBufOnReceiveHandler cexHeader cexDecFail cexTopicOf cexHandlers
        [] c2buffer = ([], c2buffer) ∧
      tryDecodeLengthPrefixed cexHeader cexDecFail c2buffer =
        (none, c2buffer.drop 1) := by
  decide

/-! ## Claim C6 -/

/-- Ten garbage bytes, then the header, the big-endian length 3 and the
payload `[1, 2, 3]`. -/
def c6buffer : List Nat :=
  List.replicate 10 0 ++ [0xAA, 0xBB, 0x00, 0x03, 1, 2, 3]

/-- Claim C6 (counterexample): processing the garbage-then-frame buffer
emits no warning log at all — the only event is the dispatch of the
decoded message, so the claimed skipped-bytes warning does not occur. -/
theorem garbage_resync_no_warning :
    (protoBufOnReceiveHandler cexHeader cexDec cexTopicOf cexHandlers
      [] c6buffer).1 = [PBEvent.dispatched 0 [1, 2, 3]] := by
  decide

/-- Claim C6 (amended): the buffer of 10 garbage bytes, a valid header,
length 3 and payload `[1, 2, 3]` produces exactly one decoded message
`[1, 2, 3]` and leaves the buffer empty, but no warning log: the
garbage bytes are silently discarded by the header scan inside the
successful `tryDecodeLengthPrefixed` call. -/
theorem garbage_resync_silent :
    protoBufOnReceiveHandler cexHeader cexDec cexTopicOf cexHandlers
      [] c6buffer = ([PBEvent.dispatched 0 [1, 2, 3]], []) := by
  decide

/-! ## Claim C5 -/

/-- Reassembling a 16-bit length from the two bytes written by
`wrapLengthPrefixed`, the way `tryDecodeLengthPrefixed` reads them. -/
lemma length_bytes_roundtrip (L : Nat) (hL : L ≤ 65535) :
    (((L >>> 8) &&& 0xff) <<< 8) ||| (L &&& 0xff) = L := by
  have h255 : (0xff : Nat) = 2 ^ 8 - 1 := by norm_num
  have hdiv : L / 2 ^ 8 < 2 ^ 8 := by
    rw [Nat.div_lt_iff_lt_mul (by norm_num)]
    omega
  rw [h255, Nat.and_pow_two_sub_one_eq_mod, Nat.and_pow_two_sub_one_eq_mod,
    Nat.shiftRight_eq_div_pow, Nat.mod_eq_of_lt hdiv, Nat.shiftLeft_eq,
    Nat.mul_comm, ← Nat.mul_add_lt_is_or (Nat.mod_lt _ (by norm_num)) _]
  exact Nat.div_add_mod L (2 ^ 8)

/-- Claim C5 (amended): with no header configured (the source default
`HEADER = new Uint8Array([])`), wrapping any payload of length at most
65535 and decoding the result with a codec whose decode inverts encode
returns the decoded payload and leaves an empty leftover buffer. -/
theorem wrap_decode_roundtrip (dec : List Nat → Option (List Nat))
    (payload m : List Nat) (hdec : dec payload = some m)
    (hlen : payload.length ≤ 65535) :
    tryDecodeLengthPrefixed [] dec (wrapLengthPrefixed payload) =
      (some m, []) := by
  have hget0 : (wrapLengthPrefixed payload).getD 0 0 =
      (payload.length >>> 8) &&& 0xff := rfl
  have hget1 : (wrapLengthPrefixed payload).getD 1 0 =
      payload.length &&& 0xff := rfl
  have hlen' : (wrapLengthPrefixed payload).length = payload.length + 2 := by
    simp [wrapLengthPrefixed]
  have hdrop2 : (wrapLengthPrefixed payload).drop 2 = payload := rfl
  have hdropall : (wrapLengthPrefixed payload).drop (2 + payload.length)
      = [] := by
    rw [show 2 + payload.length = payload.length + 2 from by omega]
    unfold wrapLengthPrefixed
    rw [List.drop_succ_cons, List.drop_succ_cons, List.drop_length]
  unfold tryDecodeLengthPrefixed
  rw [if_neg (by simp)]
  unfold tryDecodeCore
  simp only [List.length_nil, Nat.zero_add, hget0, hget1,
    length_bytes_roundtrip payload.length hlen, hlen', hdrop2]
  rw [if_neg (by omega), if_neg (by omega), List.take_length, hdec, hdropall]

/-- Claim C5 (counterexample): with the 2-byte header configured, the
round trip fails already on the one-byte payload `[1]`:
`wrapLengthPrefixed` never prepends the header, so the header scan of
`tryDecodeLengthPrefixed` finds nothing and the wrapped bytes are
returned undecoded. -/
theorem wrap_decode_header_fails :
    tryDecodeLengthPrefixed cexHeader cexDec (wrapLengthPrefixed [1]) =
      (none, [0, 1, 1]) := by
  decide

/-- Witness for `wrap_decode_roundtrip` at the payload `[1, 2, 3]` with
the identity codec. -/
theorem wrap_decode_roundtrip_witness :
    tryDecodeLengthPrefixed [] cexDec (wrapLengthPrefixed [1, 2, 3]) =
      (some [1, 2, 3], []) :=
  wrap_decode_roundtrip cexDec [1, 2, 3] [1, 2, 3] rfl (by decide)

/-! ## Claim C8 -/

/-- Claim C8 (confirmed): handler isolation in dispatch. Whenever the
decode loop extracts a message from the buffer, it appends exactly one
dispatch event and then continues processing the remaining buffer — the
continuation is the same regardless of the handler's outcome, so a
throwing handler never interrupts the decode of subsequent frames.
Moreover a registered handler that throws produces the error-level log
event carrying its topic, and a missing handler produces the
unknown-topic warning event, processing continuing in both cases. -/
theorem handler_isolation (HEADER : List Nat)
    (dec : List Nat → Option (List Nat)) (topicOf : List Nat → Nat)
    (handlers : Nat → Option (List Nat → Bool)) (buffer msg rem : List Nat)
    (hne : buffer ≠ [])
    (hdec : tryDecodeLengthPrefixed HEADER dec buffer = (some msg, rem)) :
    protoBufLoop HEADER dec topicOf handlers buffer =
      (dispatchEvt topicOf handlers msg ::
        (protoBufLoop HEADER dec topicOf handlers rem).1,
       (protoBufLoop HEADER dec topicOf handlers rem).2) ∧
    (∀ h, handlers (topicOf msg) = some h → h msg = false →
      dispatchEvt topicOf handlers msg = PBEvent.handlerError (topicOf msg)) ∧
    (handlers (topicOf msg) = none →
      dispatchEvt topicOf handlers msg = PBEvent.unknownTopic (topicOf msg)) := by
  refine ⟨?_, ?_, ?_⟩
  · rw [protoBufLoop_eq HEADER dec topicOf handlers buffer hne]
    unfold pbBody
    rw [hdec]
  · intro h hh hthrow
    simp [dispatchEvt, hh, hthrow]
  · intro hh
    simp [dispatchEvt, hh]

/-- Topic extraction reading the first byte of the message. -/
def headTopicOf : List Nat → Nat := fun m => m.getD 0 0

/-- A handler map whose topic-1 handler always throws and which has no
other registrations. -/
def throwingHandlers : Nat → Option (List Nat → Bool) :=
  fun t => if t = 1 then some (fun _ => false) else none

/-- Witness for `handler_isolation`: a buffer holding two
length-prefixed frames `[1, 9]` and `[2, 8]` (no header configured),
where the first frame's topic-1 handler throws. -/
theorem handler_isolation_witness :
    protoBufLoop [] cexDec headTopicOf throwingHandlers
        [0, 2, 1, 9, 0, 2, 2, 8] =
      (dispatchEvt headTopicOf throwingHandlers [1, 9] ::
        (protoBufLoop [] cexDec headTopicOf throwingHandlers
          [0, 2, 2, 8]).1,
       (protoBufLoop [] cexDec headTopicOf throwingHandlers
         [0, 2, 2, 8]).2) :=
  (handler_isolation [] cexDec headTopicOf throwingHandlers
    [0, 2, 1, 9, 0, 2, 2, 8] [1, 9] [0, 2, 2, 8]
    (by decide) (by decide)).1

/-! ## Claim C3 -/

/-- Claim C3 (code bug): on the escaped test sequence
`C0 61 62 DB DC 63 C0` with SLIP enabled, the stream-serial `readLoop`
emits exactly one frame `[61, 62, C0, 63]` as the claim states, but the
USB polling variant emits `[63]`: its escape branch resets the partial
frame to empty after pushing the unescaped byte (the source's
`slipBuffer = []; // reset on error?` line), discarding everything
accumulated before each escape. -/
theorem slip_escape_decode_variants :
    (readLoopRun true initSlipState
        [0xC0, 0x61, 0x62, 0xDB, 0xDC, 0x63, 0xC0]).2 =
      [SlipEvent.frame [0x61, 0x62, 0xC0, 0x63]] ∧
    (usbReadLoopRun true initSlipState
        [0xC0, 0x61, 0x62, 0xDB, 0xDC, 0x63, 0xC0]).2 =
      [SlipEvent.frame [0x63]] := by
  decide

/-! ## Claim C4 -/

/-- Claim C4 (amended): in the stream-serial `readLoop`, a byte other
than `0xC0`, `0xDC` or `0xDD` following the escape byte inside a frame
discards the in-progress partial frame, emits nothing, and returns the
machine to the not-in-frame, not-escaping state. -/
theorem slip_violation_discards (slip : Bool) (s : SlipState) (b : Nat)
    (hin : s.inSlipFrame = true) (hesc : s.escapeNext = true)
    (hC0 : b ≠ 0xC0) (hDC : b ≠ 0xDC) (hDD : b ≠ 0xDD) :
    readLoopStep slip s b =
      ({ s with
          slipBuffer := [], inSlipFrame := false, escapeNext := false },
        []) := by
  simp [readLoopStep, hin, hesc, hC0, hDC, hDD]

/-- Witness for `slip_violation_discards`: the byte `0xFF` after an
escape inside a frame holding `[0x41]`. -/
theorem slip_violation_discards_witness :
    readLoopStep true
        { readBuffer := [], slipBuffer := [0x41], inSlipFrame := true,
          escapeNext := true } 0xFF =
      ({ readBuffer := [], slipBuffer := [], inSlipFrame := false,
         escapeNext := false }, []) :=
  slip_violation_discards true
    { readBuffer := [], slipBuffer := [0x41], inSlipFrame := true,
      escapeNext := true } 0xFF rfl rfl
    (by decide) (by decide) (by decide)

/-- Claim C4 (counterexample): the claim fails as stated. A `0xC0`
following the escape byte is a byte "other than 0xDC or 0xDD", yet the
stream-serial `readLoop` handles it in the delimiter branch first and
emits the pending partial frame `[0x41]` instead of discarding it; and
in the USB polling variant an invalid escape byte (`0xFF`) leaves the
machine in-frame, so the following bytes keep accumulating and are
emitted at the next delimiter. -/
theorem slip_violation_claim_fails :
    (readLoopRun true initSlipState [0xC0, 0x41, 0xDB, 0xC0]).2 =
      [SlipEvent.frame [0x41]] ∧
    (usbReadLoopRun true initSlipState
        [0xC0, 0x41, 0xDB, 0xFF]).1.inSlipFrame = true ∧
    (usbReadLoopRun true initSlipState
        [0xC0, 0x41, 0xDB, 0xFF, 0x42, 0xC0]).2 =
      [SlipEvent.frame [0x42]] := by
  decide

/-! ## Claim C7 -/

/-- In the map variant, `Map.set` always leaves the freshly written
value under the key, whether the key was present (in-place replacement)
or absent (append). -/
lemma mapSet_find (m : List (String × Conn)) (k : String) (v : Conn) :
    (mapSet m k v).find? (fun p => p.1 == k) = some (k, v) := by
  unfold mapSet
  split_ifs with hm
  · induction m with
    | nil => simp at hm
    | cons p m' ih =>
      by_cases hp : p.1 == k
      · simp [List.find?, hp]
      · simp only [List.any_cons, hp, Bool.false_or] at hm
        simp only [List.map_cons, List.find?, hp, if_neg, Bool.false_eq_true]
        simpa [hp] using ih hm
  · induction m with
    | nil => simp [List.find?]
    | cons p m' ih =>
      rw [Bool.not_eq_true, List.any_cons, Bool.or_eq_false_iff] at hm
      obtain ⟨hp, hm'⟩ := hm
      simp only [List.cons_append, List.find?, hp]
      exact ih (by simp [hm'])

/-- Claim C7 (counterexample): `addConnection` with an already-present
uuid is not a no-op. In the array-based registry, adding `"a"` twice
leaves two records with uuid `"a"`. -/
theorem addConnection_duplicates :
    ((arrayAddConnection (arrayAddConnection [] "a").1 "a").1.filter
      (fun c => c.uuid == "a")).length = 2 := by
  decide

/-- Claim C7 (amended): `addConnection` with an already-present uuid
returns that uuid but is not a no-op: the array-based registry
unconditionally appends one more record for the uuid, and the
map-based registry keeps a single record but overwrites it with a
freshly seeded default state. -/
theorem addConnection_overwrites :
    (∀ (conns : List Conn) (uuid : String),
      (arrayAddConnection conns uuid).1.length = conns.length + 1 ∧
        (arrayAddConnection conns uuid).2 = uuid) ∧
    (∀ (m : List (String × Conn)) (uuid : String),
      mapGet (mapAddConnection m uuid).1 uuid =
        some (createDefaultInitialDeviceState uuid) ∧
        (mapAddConnection m uuid).2 = uuid) := by
  constructor
  · intro conns uuid
    rcases hfind : (conns ++ [createDefaultInitialDeviceState uuid]).find?
        (fun c => c.uuid == uuid) with _ | c
    · exfalso
      rw [List.find?_eq_none] at hfind
      have hcontra := hfind (createDefaultInitialDeviceState uuid) (by simp)
      simp [createDefaultInitialDeviceState] at hcontra
    · simp [arrayAddConnection, hfind]
  · intro m uuid
    unfold mapAddConnection mapGet
    rw [mapSet_find]
    simp

/-! ## Claim C9 -/

/-- Claim C9 (confirmed): bounded retry. With `autoConnect` true
throughout, a run of consecutive unexpected closures starting from
attempt counter `a` schedules exactly `min closures (MAX_RETRIES - a)`
reconnects; in particular 6 consecutive closures starting from the
initial attempt 0 trigger exactly `MAX_RETRIES = 5` reconnect attempts
and no more. -/
theorem bounded_retry :
    countReconnects 6 0 = MAX_RETRIES ∧
      ∀ closures a, countReconnects closures a =
        min closures (MAX_RETRIES - a) := by
  have h : ∀ closures a, countReconnects closures a =
      min closures (MAX_RETRIES - a) := by
    intro closures
    induction closures with
    | zero => intro a; simp [countReconnects]
    | succ n ih =>
      intro a
      by_cases ha : a < MAX_RETRIES
      · simp only [countReconnects, wsCloseStep, true_and, ha, if_pos,
          ih (a + 1)]
        simp only [MAX_RETRIES] at ha ⊢
        omega
      · simp only [countReconnects, wsCloseStep, true_and, ha, if_neg,
          not_false_iff]
        simp only [MAX_RETRIES] at ha ⊢
        omega
  exact ⟨by rw [h 6 0]; decide, h⟩

/-! ## Claim C10 -/

/-- Claim C10 (confirmed): the log ring is bounded. One `appendLog`
always leaves at most 200 entries (evicting from the front on
overflow), and appending the entries `0, …, 249` to an empty log leaves
exactly the most recent 200 of them, oldest first. -/
theorem log_ring_bound :
    (∀ (logs : List Nat) (log : Nat), (appendLog logs log).length ≤ 200) ∧
      List.foldl appendLog [] (List.range 250) = (List.range 250).drop 50 := by
  constructor
  · intro logs log
    simp only [appendLog, List.length_append, List.length_drop,
      List.length_cons, List.length_nil]
    omega
  · decide
